import Mathlib

set_option maxHeartbeats 1000000

/- Shallow embedding of the randr daemon (main.go): a poll loop that parses
the display-query tool's text output into a snapshot of outputs, diffs the
connected-name sets of consecutive snapshots, and decides mirror / restore
reconfiguration actions.  Machine ints are modelled as Nat (the parsed
dimensions are decimal digit strings; overflow never matters for the
properties below).  The Go map used for name sets is modelled as a list with
decidable membership, and the resolution set as a deduplicated list; only
membership is ever observed.  The Go sort.Slice / map-iteration order in
bestCommonResolution is not deterministic among equal-pixel ties; the
embedding fixes the first-listed order, and the theorems proved about the
selection (membership in the intersection, maximality of pixel area) hold
for every order the Go code can produce. -/

structure resolution where
  W : Nat
  H : Nat
deriving DecidableEq

def resolution.pixels (r : resolution) : Nat := r.W * r.H

structure output where
  Name : String
  Connected : Bool
  Primary : Bool
  Resolutions : List resolution
deriving DecidableEq

/- Go zero value of the output struct, used by the reconciler before a
primary is assigned. -/
def emptyOutput : output :=
  { Name := "", Connected := false, Primary := false, Resolutions := [] }

/- Character class of the RE2 Perl class backslash-s: [tab, newline,
formfeed, carriage return, space]. -/
def isSpace (c : Char) : Bool :=
  c = ' ' || c = '\t' || c = '\n' || c = '\x0c' || c = '\r'

def isDigitCh (c : Char) : Bool :=
  decide ('0' ≤ c) && decide (c ≤ '9')

/- strconv.Atoi on the digit substrings captured by the mode regex. -/
def digitsToNat (ds : List Char) : Nat :=
  ds.foldl (fun n c => n * 10 + (c.toNat - ('0').toNat)) 0

/- Matching of the optional (primary) group after the connection word. -/
def hasPrimary (cs : List Char) : Bool :=
  List.isPrefixOf ("primary").toList (cs.dropWhile isSpace)

/- Embedding of the anchored regex for output header lines:
a non-space name, at least one space, the word connected or disconnected,
optional spaces, an optional primary marker.  Greedy matching with
backtracking collapses to this deterministic function because the character
classes involved are disjoint. -/
def matchOutputLine (line : String) : Option (String × Bool × Bool) :=
  let cs := line.toList
  let name := cs.takeWhile (fun c => !isSpace c)
  let rest1 := cs.dropWhile (fun c => !isSpace c)
  let rest2 := rest1.dropWhile isSpace
  if name.isEmpty || rest1.isEmpty then none
  else if List.isPrefixOf ("connected").toList rest2 then
    some (String.mk name, true, hasPrimary (rest2.drop 9))
  else if List.isPrefixOf ("disconnected").toList rest2 then
    some (String.mk name, false, hasPrimary (rest2.drop 12))
  else none

/- Embedding of the anchored regex for mode lines: leading whitespace,
digits, the letter x, digits, at least one trailing whitespace character. -/
def matchModeLine (line : String) : Option resolution :=
  let cs := line.toList
  let sp := cs.takeWhile isSpace
  let r1 := cs.dropWhile isSpace
  let d1 := r1.takeWhile isDigitCh
  let r2 := r1.dropWhile isDigitCh
  if sp.isEmpty || d1.isEmpty then none
  else
    match r2 with
    | 'x' :: r3 =>
      let d2 := r3.takeWhile isDigitCh
      let r4 := r3.dropWhile isDigitCh
      if d2.isEmpty then none
      else
        match r4 with
        | c :: _ => if isSpace c then some { W := digitsToNat d1, H := digitsToNat d2 } else none
        | [] => none
    | _ => none

/- The cur pointer in the Go parser always designates the last appended
output record; a mode line mutates that record.  With no record yet
(cur == nil) the mode line is dropped. -/
def appendModeToLast : List output → resolution → List output
  | [], _ => []
  | [o], r => [{ o with Resolutions := o.Resolutions ++ [r] }]
  | o :: o2 :: os, r => o :: appendModeToLast (o2 :: os) r

def parseStep (acc : List output) (line : String) : List output :=
  match matchOutputLine line with
  | some (n, c, p) =>
    acc ++ [{ Name := n, Connected := c, Primary := p, Resolutions := [] }]
  | none =>
    match matchModeLine line with
    | some r => appendModeToLast acc r
    | none => acc

/- parseXrandr over the scanned lines of the query tool's text. -/
def parseXrandr (lines : List String) : List output :=
  lines.foldl parseStep []

def nonHeader (l : String) : Bool := (matchOutputLine l).isNone

theorem dropWhileLenLe (p : α → Bool) : ∀ l : List α, (l.dropWhile p).length ≤ l.length := by
  intro l
  induction l with
  | nil => simp [List.dropWhile]
  | cons a t ih =>
    simp only [List.dropWhile]
    cases p a <;> simp
    exact Nat.le_succ_of_le ih

/- Reference form of the parser, following the spec text: each header line
opens a record whose resolutions are exactly the mode lines of the segment
up to the next header, in input order; lines before the first header
contribute nothing. -/
def parseXrandrRef : List String → List output
  | [] => []
  | l :: ls =>
    match matchOutputLine l with
    | some (n, c, p) =>
      { Name := n, Connected := c, Primary := p,
        Resolutions := (ls.takeWhile nonHeader).filterMap matchModeLine } ::
        parseXrandrRef (ls.dropWhile nonHeader)
    | none => parseXrandrRef ls
termination_by l => l.length
decreasing_by
  · exact Nat.lt_succ_of_le (dropWhileLenLe nonHeader ls)
  · exact Nat.lt_succ_of_le (Nat.le_refl _)

def connectedSet (outputs : List output) : List String :=
  (outputs.filter (fun o => o.Connected)).map (fun o => o.Name)

def appearedOf (prevSet : List String) (cur : List output) : List String :=
  (connectedSet cur).filter (fun n => !decide (n ∈ prevSet))

def removedOf (prevSet : List String) (cur : List output) : List String :=
  prevSet.filter (fun n => !decide (n ∈ connectedSet cur))

/- bestCommonResolution: intersection of all candidates' resolution sets,
highest pixel count wins; on empty intersection the first resolution of the
last candidate; 1920x1080 when there is no candidate or no resolution. -/
def bestCommonResolution (outputs : List output) : resolution :=
  match outputs with
  | [] => { W := 1920, H := 1080 }
  | o0 :: rest =>
    let common := rest.foldl
      (fun acc o => acc.filter (fun r => decide (r ∈ o.Resolutions))) o0.Resolutions.dedup
    match common with
    | [] =>
      match ((o0 :: rest).getLastD emptyOutput).Resolutions with
      | [] => { W := 1920, H := 1080 }
      | r :: _ => r
    | c :: cs => cs.foldl (fun best r => if best.pixels < r.pixels then r else best) c

structure MirrorAction where
  primary : output
  externals : List output
  res : resolution
deriving DecidableEq

structure RestoreAction where
  name : String
  native : resolution
deriving DecidableEq

/- The classification loop over the current snapshot: connected outputs are
appended to all, the flagged ones overwrite primary, the unflagged ones are
appended to externals. -/
def classifyStep (s : output × List output × List output) (o : output) :
    output × List output × List output :=
  if o.Connected then
    if o.Primary then (o, s.2.1, s.2.2 ++ [o])
    else (s.1, s.2.1 ++ [o], s.2.2 ++ [o])
  else s

def classify (cur : List output) : output × List output × List output :=
  cur.foldl classifyStep (emptyOutput, [], [])

/- Fallback when no primary was assigned (zero-value name check): first
connected output becomes primary, the rest become the externals. -/
def mirrorPartition (cur : List output) : output × List output × List output :=
  let s := classify cur
  if s.1.Name == "" && !s.2.2.isEmpty then (s.2.2.headD emptyOutput, (s.2.2.drop 1, s.2.2))
  else s

def mirrorDecision (cur : List output) : Option MirrorAction :=
  let s := mirrorPartition cur
  if s.2.1.isEmpty then none
  else some { primary := s.1, externals := s.2.1, res := bestCommonResolution s.2.2 }

/- Guard of the restore scan: connected, primary-flagged, with at least one
known resolution. -/
def restorePred (o : output) : Bool :=
  o.Connected && o.Primary && !o.Resolutions.isEmpty

/- The restore loop over the current snapshot, stopping at the first output
passing the guard; the headD default is unreachable under the guard. -/
def restoreScan : List output → Option RestoreAction
  | [] => none
  | o :: os =>
    if restorePred o then
      some { name := o.Name, native := o.Resolutions.headD { W := 0, H := 0 } }
    else restoreScan os

/- One tick's reconciliation: the mirror decision fires only when some
connected name is new, the restore decision only when some previously
connected name is gone. -/
def tickActions (prevSet : List String) (cur : List output) :
    Option MirrorAction × Option RestoreAction :=
  ((if (appearedOf prevSet cur).isEmpty then none else mirrorDecision cur),
   (if (removedOf prevSet cur).isEmpty then none else restoreScan cur))

inductive action where
  | mirror : MirrorAction → action
  | restore : RestoreAction → action
deriving DecidableEq

/- Actions of one pass in execution order: the mirror block precedes the
restore block in the loop body. -/
def tickActionList (prevSet : List String) (cur : List output) : List action :=
  ((tickActions prevSet cur).1.toList.map action.mirror) ++
  ((tickActions prevSet cur).2.toList.map action.restore)

/- One loop iteration after the wait: a failed query logs and continues
without touching the retained state; a successful query reconciles and then
replaces prev and prevSet. -/
def processTick (st : List output × List String) (q : Option (List output)) :
    (List output × List String) × List action :=
  match q with
  | none => (st, [])
  | some cur => ((cur, connectedSet cur), tickActionList st.2 cur)

inductive loopEvent where
  | sig : loopEvent
  | query : Option (List output) → loopEvent

/- The select loop: a signal returns (clean shutdown, flag true); a query
event runs one tick and continues. -/
def runLoop : (List output × List String) → List loopEvent → (List output × List String) × Bool
  | st, [] => (st, false)
  | st, loopEvent.sig :: _ => (st, true)
  | st, loopEvent.query q :: evs => runLoop (processTick st q).1 evs

/- Reference predicate from the spec text: a resolution lies in the
intersection of all candidates' resolution sets. -/
def interP (outs : List output) (r : resolution) : Prop :=
  ∀ o ∈ outs, r ∈ o.Resolutions

instance (outs : List output) (r : resolution) : Decidable (interP outs r) :=
  inferInstanceAs (Decidable (∀ o ∈ outs, r ∈ o.Resolutions))

theorem parseXrandr_sample : parseXrandr [("HDMI-1 connected primary 1920x1080+0+0"), ("   1920x1080 60.00*+"), ("   1280x720 60.00")] =
    [{ Name := "HDMI-1", Connected := true, Primary := true,
       Resolutions := [{ W := 1920, H := 1080 }, { W := 1280, H := 720 }] }] := by
  decide

theorem restoreScan_none_iff (cur : List output) :
    restoreScan cur = none ↔ cur.find? restorePred = none := by
  induction cur with
  | nil => simp [restoreScan]
  | cons o os ih =>
    by_cases h : restorePred o
    · simp [restoreScan, h, List.find?_cons]
    · simp [restoreScan, h, List.find?_cons, ih]

theorem restoreScan_found (cur : List output) (o : output)
    (h : cur.find? restorePred = some o) :
    ∀ r rs, o.Resolutions = r :: rs →
      restoreScan cur = some { name := o.Name, native := r } := by
  induction cur with
  | nil => simp [List.find?] at h
  | cons o0 os ih =>
    intro r rs hres
    by_cases hp : restorePred o0
    · rw [List.find?_cons_of_pos _ hp] at h
      cases h
      simp [restoreScan, hp, hres]
    · rw [List.find?_cons_of_neg _ hp] at h
      simp [restoreScan, hp, ih h r rs hres]

/-- Claim C1 (amended): when the disappeared-set is non-empty, a
RestoreAction is emitted exactly when the current snapshot contains a
connected output with the primary flag set and a non-empty resolutions
list; it targets the first such output in snapshot order and its resolution
is the first entry of that output's resolutions list.  There is no fallback
to an unflagged connected output. -/
theorem c1_restore_requires_primary_flag (prevSet : List String) (cur : List output)
    (hrem : removedOf prevSet cur ≠ []) :
    ((tickActions prevSet cur).2 = none ↔ cur.find? restorePred = none) ∧
    (∀ o, cur.find? restorePred = some o → ∀ r rs, o.Resolutions = r :: rs →
      (tickActions prevSet cur).2 = some { name := o.Name, native := r }) := by
  have h2 : (tickActions prevSet cur).2 = restoreScan cur := by
    show (if (removedOf prevSet cur).isEmpty then none else restoreScan cur) = restoreScan cur
    rw [if_neg]
    simp [List.isEmpty_iff, hrem]
  rw [h2]
  exact ⟨restoreScan_none_iff cur, fun o ho r rs hres => restoreScan_found cur o ho r rs hres⟩

/-- Claim C1 counterexample: the previous snapshot has connected output A,
the current snapshot's only connected output B carries no primary flag but
has a known resolution.  The claim (first connected output is treated as
primary for the restore) demands a RestoreAction for B at 1024x768; the
code emits no RestoreAction at all, because its restore scan requires the
primary flag. -/
theorem c1_counterexample :
    removedOf (connectedSet [{ Name := "A", Connected := true, Primary := false, Resolutions := [] }])
        [{ Name := "B", Connected := true, Primary := false, Resolutions := [{ W := 1024, H := 768 }] }] = ["A"] ∧
    (([{ Name := "B", Connected := true, Primary := false, Resolutions := [{ W := 1024, H := 768 }] }] : List output).filter
        (fun o => o.Connected)).head? =
      some { Name := "B", Connected := true, Primary := false, Resolutions := [{ W := 1024, H := 768 }] } ∧
    (tickActions (connectedSet [{ Name := "A", Connected := true, Primary := false, Resolutions := [] }])
        [{ Name := "B", Connected := true, Primary := false, Resolutions := [{ W := 1024, H := 768 }] }]).2 = none := by
  decide

/- Concrete current snapshot used by the C1 witness: a connected
primary-flagged output with two known resolutions. -/
def curC1W : List output :=
  [{ Name := "eDP", Connected := true, Primary := true,
     Resolutions := [{ W := 1600, H := 900 }, { W := 1920, H := 1080 }] }]

theorem c1_restore_requires_primary_flag_witness :
    removedOf ["GONE"] curC1W ≠ [] ∧
    (((tickActions ["GONE"] curC1W).2 = none ↔ curC1W.find? restorePred = none) ∧
     (∀ o, curC1W.find? restorePred = some o → ∀ r rs, o.Resolutions = r :: rs →
       (tickActions ["GONE"] curC1W).2 = some { name := o.Name, native := r })) :=
  ⟨by decide, c1_restore_requires_primary_flag _ _ (by decide)⟩

/-- Claim C5: a tick whose state-reading query fails leaves the retained
previous snapshot and its derived connected-set unchanged and the loop
continues with the remaining events instead of terminating. -/
theorem c5_query_failure_preserves_state (st : List output × List String)
    (evs : List loopEvent) :
    (processTick st none).1 = st ∧ (processTick st none).2 = [] ∧
    runLoop st (loopEvent.query none :: evs) = runLoop st evs :=
  ⟨rfl, rfl, rfl⟩

/-- Claim C7: reconciling a snapshot against itself yields empty appeared
and disappeared sets and emits neither a MirrorAction nor a RestoreAction. -/
theorem c7_self_reconcile_noop (s : List output) :
    appearedOf (connectedSet s) s = [] ∧ removedOf (connectedSet s) s = [] ∧
    tickActions (connectedSet s) s = (none, none) := by
  have h1 : appearedOf (connectedSet s) s = [] := by
    simp [appearedOf, List.filter_eq_nil_iff]
  have h2 : removedOf (connectedSet s) s = [] := by
    simp [removedOf, List.filter_eq_nil_iff]
  refine ⟨h1, h2, ?_⟩
  simp [tickActions, h1, h2]

/-- Claim C9: when outputs newly appear but the externals partition is
empty, no MirrorAction is emitted. -/
theorem c9_no_externals_no_mirror (prevSet : List String) (cur : List output)
    (_hnew : appearedOf prevSet cur ≠ []) (hext : (mirrorPartition cur).2.1 = []) :
    (tickActions prevSet cur).1 = none := by
  have hm : mirrorDecision cur = none := by
    simp [mirrorDecision, hext]
  show (if (appearedOf prevSet cur).isEmpty then none else mirrorDecision cur) = none
  rw [hm]
  split <;> rfl

theorem c9_no_externals_no_mirror_witness :
    appearedOf [] [{ Name := "A", Connected := true, Primary := false, Resolutions := [] }] ≠ [] ∧
    (mirrorPartition [{ Name := "A", Connected := true, Primary := false, Resolutions := [] }]).2.1 = [] ∧
    (tickActions [] [{ Name := "A", Connected := true, Primary := false, Resolutions := [] }]).1 = none :=
  ⟨by decide, by decide, c9_no_externals_no_mirror _ _ (by decide) (by decide)⟩

theorem mem_interFold (rest : List output) : ∀ (init : List resolution) (r : resolution),
    (r ∈ rest.foldl (fun acc o => acc.filter (fun x => decide (x ∈ o.Resolutions))) init ↔
     r ∈ init ∧ ∀ o ∈ rest, r ∈ o.Resolutions) := by
  induction rest with
  | nil => simp
  | cons o os ih =>
    intro init r
    simp only [List.foldl_cons]
    rw [ih]
    simp only [List.mem_filter, decide_eq_true_eq, List.forall_mem_cons]
    tauto

/- Membership in the computed intersection list agrees with the reference
intersection predicate over all candidates. -/
theorem commonMemIff (o0 : output) (rest : List output) (r : resolution) :
    (r ∈ rest.foldl (fun acc o => acc.filter (fun x => decide (x ∈ o.Resolutions)))
        o0.Resolutions.dedup ↔ interP (o0 :: rest) r) := by
  rw [mem_interFold]
  simp [interP, List.mem_dedup, List.forall_mem_cons]

theorem maxFoldMem (cs : List resolution) : ∀ c : resolution,
    cs.foldl (fun best r => if best.pixels < r.pixels then r else best) c ∈ c :: cs := by
  induction cs with
  | nil => simp
  | cons x xs ih =>
    intro c
    simp only [List.foldl_cons]
    have h := ih (if c.pixels < x.pixels then x else c)
    rcases List.mem_cons.mp h with h1 | h1
    · rw [h1]
      split
      · exact List.mem_cons_of_mem _ (List.mem_cons_self _ _)
      · exact List.mem_cons_self _ _
    · exact List.mem_cons_of_mem _ (List.mem_cons_of_mem _ h1)

theorem maxFoldLe (cs : List resolution) : ∀ c : resolution, ∀ r ∈ c :: cs,
    r.pixels ≤ (cs.foldl (fun best r => if best.pixels < r.pixels then r else best) c).pixels := by
  induction cs with
  | nil =>
    intro c r hr
    rcases List.mem_cons.mp hr with h1 | h1
    · rw [h1]
      simp
    · cases h1
  | cons x xs ih =>
    intro c r hr
    simp only [List.foldl_cons]
    have hc : c.pixels ≤ (if c.pixels < x.pixels then x else c).pixels := by
      split <;> omega
    have hx : x.pixels ≤ (if c.pixels < x.pixels then x else c).pixels := by
      split <;> omega
    rcases List.mem_cons.mp hr with h1 | h1
    · rw [h1]
      exact le_trans hc (ih _ _ (List.mem_cons_self _ _))
    rcases List.mem_cons.mp h1 with h2 | h2
    · rw [h2]
      exact le_trans hx (ih _ _ (List.mem_cons_self _ _))
    · exact ih _ r (List.mem_cons_of_mem _ h2)

/-- Claim C4: bestCommonResolution returns 1920x1080 on an empty candidate
list; on a non-empty list whose candidates share at least one resolution it
returns an element of the intersection of all candidates' resolution sets
(strict width and height equality) of maximum pixel area. -/
theorem c4_bestCommonResolution_spec :
    bestCommonResolution [] = { W := 1920, H := 1080 } ∧
    ∀ outs : List output, outs ≠ [] → (∃ r0, interP outs r0) →
      interP outs (bestCommonResolution outs) ∧
      ∀ r, interP outs r → r.pixels ≤ (bestCommonResolution outs).pixels := by
  refine ⟨rfl, ?_⟩
  intro outs hne hex
  obtain ⟨r0, hr0⟩ := hex
  cases outs with
  | nil => exact absurd rfl hne
  | cons o0 rest =>
    have h0 : r0 ∈ rest.foldl (fun acc o => acc.filter (fun x => decide (x ∈ o.Resolutions)))
        o0.Resolutions.dedup := (commonMemIff o0 rest r0).mpr hr0
    cases hcom : rest.foldl (fun acc o => acc.filter (fun x => decide (x ∈ o.Resolutions)))
        o0.Resolutions.dedup with
    | nil =>
      rw [hcom] at h0
      cases h0
    | cons c cs =>
      have hb : bestCommonResolution (o0 :: rest) =
          cs.foldl (fun best r => if best.pixels < r.pixels then r else best) c := by
        simp only [bestCommonResolution]
        rw [hcom]
      constructor
      · rw [hb]
        apply (commonMemIff o0 rest _).mp
        rw [hcom]
        exact maxFoldMem cs c
      · intro r hr
        have hrc : r ∈ c :: cs := by
          rw [← hcom]
          exact (commonMemIff o0 rest r).mpr hr
        rw [hb]
        exact maxFoldLe cs c r hrc

def outsC4W : List output :=
  [{ Name := "A", Connected := true, Primary := false,
     Resolutions := [{ W := 1920, H := 1080 }, { W := 1280, H := 720 }] },
   { Name := "B", Connected := true, Primary := false,
     Resolutions := [{ W := 1920, H := 1080 }] }]

theorem c4_bestCommonResolution_spec_witness :
    interP outsC4W (bestCommonResolution outsC4W) ∧
    ∀ r, interP outsC4W r → r.pixels ≤ (bestCommonResolution outsC4W).pixels :=
  c4_bestCommonResolution_spec.2 outsC4W (by decide)
    ⟨{ W := 1920, H := 1080 }, by decide⟩


/- Last element of a list, or the default when the list is empty; models
the repeated overwriting of the primary variable in the classification
loop. -/
def lastOr : List α → α → α
  | [], d => d
  | a :: t, _ => lastOr t a

theorem classifyAux : ∀ (cur : List output) (p : output) (ex al : List output),
    cur.foldl classifyStep (p, ex, al) =
      (lastOr ((cur.filter (fun o => o.Connected)).filter (fun o => o.Primary)) p,
       ex ++ (cur.filter (fun o => o.Connected)).filter (fun o => !o.Primary),
       al ++ cur.filter (fun o => o.Connected)) := by
  intro cur
  induction cur with
  | nil =>
    intro p ex al
    simp [lastOr]
  | cons o os ih =>
    intro p ex al
    rw [List.foldl_cons]
    cases hc : o.Connected with
    | false =>
      have hstep : classifyStep (p, ex, al) o = (p, ex, al) := by
        simp [classifyStep, hc]
      have h1 : (o :: os).filter (fun o => o.Connected) = os.filter (fun o => o.Connected) := by
        simp [List.filter_cons, hc]
      rw [hstep, ih, h1]
    | true =>
      have h1 : (o :: os).filter (fun o => o.Connected) =
          o :: os.filter (fun o => o.Connected) := by
        simp [List.filter_cons, hc]
      cases hp : o.Primary with
      | true =>
        have hstep : classifyStep (p, ex, al) o = (o, ex, al ++ [o]) := by
          simp [classifyStep, hc, hp]
        have h2 : (o :: os.filter (fun o => o.Connected)).filter (fun o => o.Primary) =
            o :: (os.filter (fun o => o.Connected)).filter (fun o => o.Primary) := by
          simp [List.filter_cons, hp]
        have h3 : (o :: os.filter (fun o => o.Connected)).filter (fun o => !o.Primary) =
            (os.filter (fun o => o.Connected)).filter (fun o => !o.Primary) := by
          simp [List.filter_cons, hp]
        rw [hstep, ih, h1, h2, h3, List.append_assoc]
        rfl
      | false =>
        have hstep : classifyStep (p, ex, al) o = (p, ex ++ [o], al ++ [o]) := by
          simp [classifyStep, hc, hp]
        have h2 : (o :: os.filter (fun o => o.Connected)).filter (fun o => o.Primary) =
            (os.filter (fun o => o.Connected)).filter (fun o => o.Primary) := by
          simp [List.filter_cons, hp]
        have h3 : (o :: os.filter (fun o => o.Connected)).filter (fun o => !o.Primary) =
            o :: (os.filter (fun o => o.Connected)).filter (fun o => !o.Primary) := by
          simp [List.filter_cons, hp]
        rw [hstep, ih, h1, h2, h3, List.append_assoc, List.append_assoc]
        rfl

/- The classification loop computes: primary is the last primary-flagged
connected output (Go zero value when none), externals the unflagged
connected outputs in order, all the connected outputs in order. -/
theorem classify_spec (cur : List output) :
    classify cur =
      (lastOr ((cur.filter (fun o => o.Connected)).filter (fun o => o.Primary)) emptyOutput,
       (cur.filter (fun o => o.Connected)).filter (fun o => !o.Primary),
       cur.filter (fun o => o.Connected)) := by
  have h := classifyAux cur emptyOutput [] []
  simpa [classify] using h

theorem mirrorPartition_all (cur : List output) :
    (mirrorPartition cur).2.2 = cur.filter (fun o => o.Connected) := by
  simp only [mirrorPartition]
  split
  · simp [classify_spec]
  · simp [classify_spec]

theorem mirror_some_spec (cur : List output) (m : MirrorAction)
    (h : mirrorDecision cur = some m) :
    m.primary = (mirrorPartition cur).1 ∧ m.externals = (mirrorPartition cur).2.1 ∧
    m.externals ≠ [] ∧
    m.res = bestCommonResolution (cur.filter (fun o => o.Connected)) := by
  have hall := mirrorPartition_all cur
  simp only [mirrorDecision] at h
  split at h
  · cases h
  · rename_i hne
    cases h
    refine ⟨rfl, rfl, ?_, ?_⟩
    · intro hnil
      apply hne
      rw [List.isEmpty_iff]
      exact hnil
    · rw [hall]

theorem mirror_all_ne_nil (cur : List output) (m : MirrorAction)
    (h : mirrorDecision cur = some m) :
    cur.filter (fun o => o.Connected) ≠ [] := by
  obtain ⟨-, hext, hne, -⟩ := mirror_some_spec cur m h
  intro hnil
  apply hne
  rw [hext]
  have hcl := classify_spec cur
  rw [hnil] at hcl
  simp [lastOr] at hcl
  simp [mirrorPartition, hcl, emptyOutput]

theorem getLastQ_cons_eq (a : α) (l : List α) (d : α) :
    (a :: l).getLast? = some ((a :: l).getLastD d) := by
  induction l generalizing a with
  | nil => simp
  | cons b t ih =>
    rw [List.getLast?_cons_cons, List.getLastD_cons]
    exact ih b

/-- Claim C2 (amended): when outputs newly appear, a MirrorAction is
emitted, and the connected outputs share no common resolution, the action's
resolution is the first resolution of the last connected output in snapshot
order (1920x1080 when that output has no known resolutions).  This output
is the newly-connected one only when it happens to be listed last. -/
theorem c2_fallback_last_connected (prevSet : List String) (cur : List output)
    (m : MirrorAction) (_hnew : appearedOf prevSet cur ≠ [])
    (hm : (tickActions prevSet cur).1 = some m)
    (hnc : ∀ r : resolution, ¬ interP (cur.filter (fun o => o.Connected)) r) :
    ∃ o, (cur.filter (fun o => o.Connected)).getLast? = some o ∧
      m.res = o.Resolutions.headD { W := 1920, H := 1080 } := by
  have hmd : mirrorDecision cur = some m := by
    revert hm
    show (if (appearedOf prevSet cur).isEmpty then none else mirrorDecision cur) = some m → _
    split
    · intro h
      cases h
    · exact id
  have hall := mirror_all_ne_nil cur m hmd
  obtain ⟨-, -, -, hres⟩ := mirror_some_spec cur m hmd
  cases hfa : cur.filter (fun o => o.Connected) with
  | nil => exact absurd hfa hall
  | cons o0 rest =>
    rw [hfa] at hres hnc
    have hcom : rest.foldl (fun acc o => acc.filter (fun x => decide (x ∈ o.Resolutions)))
        o0.Resolutions.dedup = [] := by
      cases hcc : rest.foldl (fun acc o => acc.filter (fun x => decide (x ∈ o.Resolutions)))
          o0.Resolutions.dedup with
      | nil => rfl
      | cons c cs =>
        exfalso
        apply hnc c
        apply (commonMemIff o0 rest c).mp
        rw [hcc]
        exact List.mem_cons_self _ _
    refine ⟨(o0 :: rest).getLastD emptyOutput, getLastQ_cons_eq o0 rest emptyOutput, ?_⟩
    rw [hres]
    simp only [bestCommonResolution]
    rw [hcom]
    cases hR : ((o0 :: rest).getLastD emptyOutput).Resolutions with
    | nil => rfl
    | cons r rs => rfl

/- Concrete snapshots for claim C2: eDP appears (listed first), HDMI was
already connected (listed last, primary), and the two share no resolution. -/
def eDPoW : output :=
  { Name := "eDP", Connected := true, Primary := false,
    Resolutions := [{ W := 1024, H := 768 }] }

def hdmiOW : output :=
  { Name := "HDMI", Connected := true, Primary := true,
    Resolutions := [{ W := 800, H := 600 }] }

def prevC2W : List output :=
  [{ Name := "eDP", Connected := false, Primary := false,
     Resolutions := [{ W := 1024, H := 768 }] }, hdmiOW]

def curC2W : List output := [eDPoW, hdmiOW]

def mC2W : MirrorAction :=
  { primary := hdmiOW, externals := [eDPoW], res := { W := 800, H := 600 } }

/-- Claim C2 counterexample: the appeared output eDP is listed first and
has first resolution 1024x768, the connected outputs share no resolution,
yet the emitted MirrorAction's resolution is 800x600 — the first resolution
of the last connected output in snapshot order (HDMI), not of the
newly-connected one as the claim states. -/
theorem c2_counterexample :
    appearedOf (connectedSet prevC2W) curC2W = ["eDP"] ∧
    eDPoW.Resolutions = [{ W := 1024, H := 768 }] ∧
    (∀ r ∈ eDPoW.Resolutions, r ∉ hdmiOW.Resolutions) ∧
    (tickActions (connectedSet prevC2W) curC2W).1 = some mC2W ∧
    mC2W.res = { W := 800, H := 600 } ∧
    ({ W := 800, H := 600 } : resolution) ≠ { W := 1024, H := 768 } := by
  decide

theorem c2_fallback_last_connected_witness :
    appearedOf (connectedSet prevC2W) curC2W ≠ [] ∧
    ∃ o, (curC2W.filter (fun o => o.Connected)).getLast? = some o ∧
      mC2W.res = o.Resolutions.headD { W := 1920, H := 1080 } :=
  ⟨by decide,
   c2_fallback_last_connected (connectedSet prevC2W) curC2W mC2W (by decide) (by decide)
     (by
       intro r hr
       have h1 := hr eDPoW (by decide)
       have h2 := hr hdmiOW (by decide)
       simp only [eDPoW, hdmiOW, List.mem_singleton] at h1 h2
       rw [h1] at h2
       exact absurd h2 (by decide))⟩

theorem filter_ne_of_head [DecidableEq α] (a : α) (t : List α) (h : ∀ x ∈ t, x ≠ a) :
    (a :: t).filter (fun o => decide (o ≠ a)) = t := by
  have hcond : ¬((fun o => decide (o ≠ a)) a = true) := by simp
  rw [List.filter_cons, if_neg hcond, List.filter_eq_self]
  intro x hx
  simp [h x hx]

/-- Claim C10 (amended): for a current snapshot whose connected outputs
have pairwise distinct names and at most one primary flag among them,
every emitted MirrorAction has a connected output of that snapshot as its
primary, its externals are exactly the other connected outputs (the primary
is never among them), and its resolution is the best-common-resolution of
exactly the connected outputs in snapshot order. -/
theorem c10_mirror_partition_invariant (prevSet : List String) (cur : List output)
    (m : MirrorAction)
    (h1 : ((cur.filter (fun o => o.Connected)).filter (fun o => o.Primary)).length ≤ 1)
    (h2 : (cur.filter (fun o => o.Connected)).Pairwise (fun a b => a.Name ≠ b.Name))
    (h3 : (tickActions prevSet cur).1 = some m) :
    m.primary ∈ cur.filter (fun o => o.Connected) ∧
    m.externals = (cur.filter (fun o => o.Connected)).filter (fun o => decide (o ≠ m.primary)) ∧
    m.primary ∉ m.externals ∧
    m.res = bestCommonResolution (cur.filter (fun o => o.Connected)) := by
  have hmd : mirrorDecision cur = some m := by
    revert h3
    show (if (appearedOf prevSet cur).isEmpty then none else mirrorDecision cur) = some m → _
    split
    · intro h
      cases h
    · exact id
  obtain ⟨hprim, hext, hne, hres⟩ := mirror_some_spec cur m hmd
  have hallne : cur.filter (fun o => o.Connected) ≠ [] := mirror_all_ne_nil cur m hmd
  have hcl := classify_spec cur
  by_cases hcond : ((classify cur).1.Name == "" && !(classify cur).2.2.isEmpty) = true
  · have hpart : mirrorPartition cur =
        ((classify cur).2.2.headD emptyOutput, ((classify cur).2.2.drop 1, (classify cur).2.2)) := by
      simp only [mirrorPartition]
      rw [if_pos hcond]
    cases hfa : cur.filter (fun o => o.Connected) with
    | nil => exact absurd hfa hallne
    | cons a t =>
      have hP : m.primary = a := by
        rw [hprim, hpart]
        simp only [hcl, hfa]
        rfl
      have hE : m.externals = t := by
        rw [hext, hpart]
        simp only [hcl, hfa]
        rfl
      rw [hfa] at h2 hres
      have hdist : ∀ x ∈ t, x ≠ a := by
        intro x hx heq
        have hne2 := (List.pairwise_cons.mp h2).1 x hx
        rw [heq] at hne2
        exact hne2 rfl
      refine ⟨?_, ?_, ?_, hres⟩
      · rw [hP]
        exact List.mem_cons_self _ _
      · rw [hE, hP]
        exact (filter_ne_of_head a t hdist).symm
      · rw [hE, hP]
        intro hmem
        exact hdist _ hmem rfl
  · have hpart : mirrorPartition cur = classify cur := by
      simp only [mirrorPartition]
      rw [if_neg hcond]
    have hN : ¬((classify cur).1.Name == "") = true := by
      intro hname
      apply hcond
      rw [hname]
      have : ¬(classify cur).2.2.isEmpty = true := by
        rw [hcl]
        intro hie
        exact hallne (List.isEmpty_iff.mp hie)
      simp [this]
    have hflagne : (cur.filter (fun o => o.Connected)).filter (fun o => o.Primary) ≠ [] := by
      intro hnilf
      apply hN
      rw [hcl]
      simp only [hnilf, lastOr, emptyOutput]
      rfl
    cases hflag : (cur.filter (fun o => o.Connected)).filter (fun o => o.Primary) with
    | nil => exact absurd hflag hflagne
    | cons q qs =>
      have hqs : qs = [] := by
        rw [hflag] at h1
        cases qs with
        | nil => rfl
        | cons b bs => simp at h1
      subst hqs
      have hq : q ∈ cur.filter (fun o => o.Connected) ∧ q.Primary = true := by
        have : q ∈ (cur.filter (fun o => o.Connected)).filter (fun o => o.Primary) := by
          rw [hflag]
          exact List.mem_cons_self _ _
        exact ⟨(List.mem_filter.mp this).1, (List.mem_filter.mp this).2⟩
      have huniq : ∀ o ∈ cur.filter (fun o => o.Connected), o.Primary = true → o = q := by
        intro o ho hop
        have : o ∈ (cur.filter (fun o => o.Connected)).filter (fun o => o.Primary) :=
          List.mem_filter.mpr ⟨ho, hop⟩
        rw [hflag] at this
        exact List.mem_singleton.mp this
      have hP : m.primary = q := by
        rw [hprim, hpart, hcl]
        simp only [hflag, lastOr]
      have hE : m.externals = (cur.filter (fun o => o.Connected)).filter (fun o => !o.Primary) := by
        rw [hext, hpart, hcl]
      refine ⟨?_, ?_, ?_, hres⟩
      · rw [hP]
        exact hq.1
      · rw [hE, hP]
        apply List.filter_congr
        intro o ho
        cases hop : o.Primary with
        | true =>
          have : o = q := huniq o ho hop
          simp [this]
        | false =>
          have : o ≠ q := by
            intro heq
            rw [heq] at hop
            rw [hq.2] at hop
            cases hop
          simp [this]
      · rw [hE, hP]
        intro hmem
        have := (List.mem_filter.mp hmem).2
        rw [hq.2] at this
        cases this

/- Snapshot with two primary-flagged connected outputs, used to refute the
unrestricted form of claim C10. -/
def oAX : output := { Name := "A", Connected := true, Primary := true, Resolutions := [] }

def oBX : output := { Name := "B", Connected := true, Primary := true, Resolutions := [] }

def oCX : output := { Name := "C", Connected := true, Primary := false, Resolutions := [] }

def curC10X : List output := [oAX, oBX, oCX]

/-- Claim C10 counterexample: with two primary-flagged connected outputs A
and B, the emitted MirrorAction keeps only B as primary and lists only C as
external; the connected output A is neither the primary nor among the
externals, so the externals are not exactly the other connected outputs of
the snapshot. -/
theorem c10_counterexample :
    (tickActions [] curC10X).1 =
      some { primary := oBX, externals := [oCX], res := { W := 1920, H := 1080 } } ∧
    oAX ∈ curC10X.filter (fun o => o.Connected) ∧
    oAX ≠ oBX ∧
    oAX ∉ [oCX] := by
  decide

def oAW10 : output :=
  { Name := "A", Connected := true, Primary := true,
    Resolutions := [{ W := 1920, H := 1080 }] }

def oBW10 : output :=
  { Name := "B", Connected := true, Primary := false,
    Resolutions := [{ W := 1920, H := 1080 }] }

def curC10W : List output := [oAW10, oBW10]

def mC10W : MirrorAction :=
  { primary := oAW10, externals := [oBW10], res := { W := 1920, H := 1080 } }

theorem c10_mirror_partition_invariant_witness :
    ((curC10W.filter (fun o => o.Connected)).filter (fun o => o.Primary)).length ≤ 1 ∧
    (mC10W.primary ∈ curC10W.filter (fun o => o.Connected) ∧
     mC10W.externals =
       (curC10W.filter (fun o => o.Connected)).filter (fun o => decide (o ≠ mC10W.primary)) ∧
     mC10W.primary ∉ mC10W.externals ∧
     mC10W.res = bestCommonResolution (curC10W.filter (fun o => o.Connected))) :=
  ⟨by decide,
   c10_mirror_partition_invariant [] curC10W mC10W (by decide)
     (by decide)
     (by decide)⟩

/-- Claim C6 (amended): when both appeared and disappeared sets are
non-empty and both decisions fire — the externals partition is non-empty
and a connected primary-flagged output with a non-empty resolutions list
exists — one reconciliation pass emits exactly the MirrorAction followed by
the RestoreAction, in that order. -/
theorem c6_mirror_then_restore (prevSet : List String) (cur : List output)
    (m : MirrorAction) (r : RestoreAction)
    (hnew : appearedOf prevSet cur ≠ []) (hrem : removedOf prevSet cur ≠ [])
    (hm : mirrorDecision cur = some m) (hr : restoreScan cur = some r) :
    tickActionList prevSet cur = [action.mirror m, action.restore r] := by
  have e1 : (appearedOf prevSet cur).isEmpty = false := by
    rw [List.isEmpty_eq_false]
    exact hnew
  have e2 : (removedOf prevSet cur).isEmpty = false := by
    rw [List.isEmpty_eq_false]
    exact hrem
  simp [tickActionList, tickActions, e1, e2, hm, hr]

/- Snapshot pair for the C6 counterexample: A disappears, B appears, B is
the only connected output (no externals) and carries no primary flag. -/
def prevC6X : List output :=
  [{ Name := "A", Connected := true, Primary := false, Resolutions := [] }]

def curC6X : List output :=
  [{ Name := "B", Connected := true, Primary := false,
     Resolutions := [{ W := 800, H := 600 }] }]

/-- Claim C6 counterexample: a snapshot pair with one appeared output (B)
and one disappeared output (A), distinct names, for which the pass emits no
action at all — no MirrorAction because the sole connected output leaves
the externals partition empty, and no RestoreAction because no connected
output carries the primary flag. -/
theorem c6_counterexample :
    appearedOf (connectedSet prevC6X) curC6X = ["B"] ∧
    removedOf (connectedSet prevC6X) curC6X = ["A"] ∧
    tickActionList (connectedSet prevC6X) curC6X = [] := by
  decide

def curC6W : List output :=
  [{ Name := "A", Connected := true, Primary := true,
     Resolutions := [{ W := 1920, H := 1080 }] },
   { Name := "B", Connected := true, Primary := false,
     Resolutions := [{ W := 1920, H := 1080 }] }]

def mC6W : MirrorAction :=
  { primary := { Name := "A", Connected := true, Primary := true,
                 Resolutions := [{ W := 1920, H := 1080 }] },
    externals := [{ Name := "B", Connected := true, Primary := false,
                    Resolutions := [{ W := 1920, H := 1080 }] }],
    res := { W := 1920, H := 1080 } }

def rC6W : RestoreAction := { name := "A", native := { W := 1920, H := 1080 } }

theorem c6_mirror_then_restore_witness :
    appearedOf ["OLD"] curC6W ≠ [] ∧ removedOf ["OLD"] curC6W ≠ [] ∧
    tickActionList ["OLD"] curC6W = [action.mirror mC6W, action.restore rC6W] :=
  ⟨by decide, by decide,
   c6_mirror_then_restore ["OLD"] curC6W mC6W rC6W (by decide) (by decide) (by decide) (by decide)⟩

theorem parseXrandrRef_nil : parseXrandrRef [] = [] := by
  rw [parseXrandrRef]

theorem parseXrandrRef_cons_header (l : String) (ls : List String) (n : String) (c p : Bool)
    (h : matchOutputLine l = some (n, c, p)) :
    parseXrandrRef (l :: ls) =
      { Name := n, Connected := c, Primary := p,
        Resolutions := (ls.takeWhile nonHeader).filterMap matchModeLine } ::
        parseXrandrRef (ls.dropWhile nonHeader) := by
  rw [parseXrandrRef, h]

theorem parseXrandrRef_cons_nonheader (l : String) (ls : List String)
    (h : matchOutputLine l = none) :
    parseXrandrRef (l :: ls) = parseXrandrRef ls := by
  rw [parseXrandrRef, h]

theorem appendModeToLast_append : ∀ (acc : List output) (o : output) (r : resolution),
    appendModeToLast (acc ++ [o]) r = acc ++ [{ o with Resolutions := o.Resolutions ++ [r] }] := by
  intro acc
  induction acc with
  | nil =>
    intro o r
    rfl
  | cons a t ih =>
    intro o r
    cases t with
    | nil => rfl
    | cons b t2 =>
      show a :: appendModeToLast ((b :: t2) ++ [o]) r = a :: ((b :: t2) ++ _)
      rw [ih]

/- Key invariant of the parsing fold: with at least one record open and the
current record last, the remaining lines extend that record with the mode
lines of its segment and then parse the rest from the next header on. -/
theorem parse_foldl_consume : ∀ (ls : List String) (acc : List output) (o : output),
    List.foldl parseStep (acc ++ [o]) ls =
      acc ++ ({ o with Resolutions :=
          o.Resolutions ++ (ls.takeWhile nonHeader).filterMap matchModeLine } ::
        parseXrandrRef (ls.dropWhile nonHeader)) := by
  intro ls
  induction ls with
  | nil =>
    intro acc o
    simp [parseXrandrRef_nil]
  | cons l ls ih =>
    intro acc o
    rw [List.foldl_cons]
    cases hml : matchOutputLine l with
    | some v =>
      obtain ⟨n, c, p⟩ := v
      have hstep : parseStep (acc ++ [o]) l =
          (acc ++ [o]) ++ [{ Name := n, Connected := c, Primary := p, Resolutions := [] }] := by
        simp [parseStep, hml]
      have hnh : nonHeader l = false := by
        simp [nonHeader, hml]
      rw [hstep, ih, List.takeWhile_cons, List.dropWhile_cons, hnh]
      simp only [Bool.false_eq_true, if_false]
      rw [parseXrandrRef_cons_header l ls n c p hml]
      simp
    | none =>
      have hnh : nonHeader l = true := by
        simp [nonHeader, hml]
      cases hmm : matchModeLine l with
      | some r =>
        have hstep : parseStep (acc ++ [o]) l =
            acc ++ [{ o with Resolutions := o.Resolutions ++ [r] }] := by
          simp only [parseStep, hml, hmm]
          exact appendModeToLast_append acc o r
        rw [hstep, ih, List.takeWhile_cons, List.dropWhile_cons, hnh]
        simp only [if_true]
        rw [List.filterMap_cons, hmm]
        simp
      | none =>
        have hstep : parseStep (acc ++ [o]) l = acc ++ [o] := by
          simp only [parseStep, hml, hmm]
        rw [hstep, ih, List.takeWhile_cons, List.dropWhile_cons, hnh]
        simp only [if_true]
        rw [List.filterMap_cons, hmm]

/- The fold-based parser computes the segment-based reference parse. -/
theorem parseXrandr_eq_ref : ∀ ls : List String, parseXrandr ls = parseXrandrRef ls := by
  intro ls
  induction ls with
  | nil => rw [parseXrandrRef_nil]; rfl
  | cons l ls ih =>
    show List.foldl parseStep (parseStep [] l) ls = _
    cases hml : matchOutputLine l with
    | some v =>
      obtain ⟨n, c, p⟩ := v
      have hstep : parseStep [] l =
          [] ++ [{ Name := n, Connected := c, Primary := p, Resolutions := [] }] := by
        simp [parseStep, hml]
      rw [hstep, parse_foldl_consume ls [], parseXrandrRef_cons_header l ls n c p hml]
      simp
    | none =>
      have hstep : parseStep [] l = [] := by
        cases hmm : matchModeLine l with
        | some r => simp [parseStep, hml, hmm, appendModeToLast]
        | none => simp [parseStep, hml, hmm]
      rw [hstep, parseXrandrRef_cons_nonheader l ls hml]
      exact ih

/-- Claim C8: the parser attaches each mode line to the output record
created by the most recent preceding header line, preserves the input
order of resolutions without re-sorting, and ignores mode lines occurring
before any header line: for every input the fold-based parser equals the
reference parser that gives each header record exactly the mode-line
values of its segment, in input order. -/
theorem c8_parse_attaches_to_latest_header (lines : List String) :
    parseXrandr lines = parseXrandrRef lines :=
  parseXrandr_eq_ref lines

def isConnHeader (l : String) : Bool :=
  match matchOutputLine l with
  | some (_, c, _) => c
  | none => false

def isModeLine (l : String) : Bool := (matchModeLine l).isSome

/- Input-shape condition under which the data-model invariant holds: every
connected header line is immediately followed by a mode line (in particular
it is not the last line). -/
def coveredLines : List String → Bool
  | [] => true
  | [l] => !isConnHeader l
  | l :: l2 :: ls => (!isConnHeader l || isModeLine l2) && coveredLines (l2 :: ls)

theorem coveredLines_tail {l : String} {ls : List String}
    (h : coveredLines (l :: ls) = true) : coveredLines ls = true := by
  cases ls with
  | nil => rfl
  | cons l2 ls2 =>
    simp only [coveredLines, Bool.and_eq_true] at h
    exact h.2

theorem coveredLines_suffix : ∀ (l2 l1 : List String), l1 <:+ l2 →
    coveredLines l2 = true → coveredLines l1 = true := by
  intro l2
  induction l2 with
  | nil =>
    intro l1 h hc
    rw [List.suffix_nil.mp h]
    rfl
  | cons a t ih =>
    intro l1 h hc
    rcases List.suffix_cons_iff.mp h with h1 | h1
    · rw [h1]
      exact hc
    · exact ih l1 h1 (coveredLines_tail hc)

/- A mode line starts with whitespace, a header line with a non-space name;
so a line recognized as a mode line is never a header line. -/
theorem modeLine_not_header (l : String) (h : (matchModeLine l).isSome = true) :
    matchOutputLine l = none := by
  cases hcs : l.toList with
  | nil =>
    exfalso
    have hm : matchModeLine l = none := by
      simp only [matchModeLine]
      rw [hcs]
      simp
    rw [hm] at h
    cases h
  | cons c0 cs0 =>
    cases hsp : isSpace c0 with
    | true =>
      simp only [matchOutputLine]
      rw [hcs, List.takeWhile_cons_of_neg (by simp [hsp])]
      simp
    | false =>
      exfalso
      have hm : matchModeLine l = none := by
        simp only [matchModeLine]
        rw [hcs, List.takeWhile_cons_of_neg (by simp [hsp])]
        simp
      rw [hm] at h
      cases h

theorem coveredRef_aux : ∀ (n : Nat) (ls : List String), ls.length ≤ n →
    coveredLines ls = true →
    ∀ o ∈ parseXrandrRef ls, o.Connected = true → o.Resolutions ≠ [] := by
  intro n
  induction n with
  | zero =>
    intro ls hlen hc o ho
    have hnil : ls = [] := List.length_eq_zero.mp (Nat.le_zero.mp hlen)
    subst hnil
    rw [parseXrandrRef_nil] at ho
    cases ho
  | succ n ih =>
    intro ls hlen hc o ho hoc
    cases ls with
    | nil =>
      rw [parseXrandrRef_nil] at ho
      cases ho
    | cons l ls2 =>
      cases hml : matchOutputLine l with
      | none =>
        rw [parseXrandrRef_cons_nonheader l ls2 hml] at ho
        exact ih ls2 (Nat.le_of_succ_le_succ hlen) (coveredLines_tail hc) o ho hoc
      | some v =>
        obtain ⟨nm, cn, pr⟩ := v
        rw [parseXrandrRef_cons_header l ls2 nm cn pr hml] at ho
        rcases List.mem_cons.mp ho with h1 | h1
        · subst h1
          have hcn : cn = true := hoc
          have hich : isConnHeader l = true := by
            simp [isConnHeader, hml, hcn]
          cases ls2 with
          | nil =>
            exfalso
            have : coveredLines [l] = !isConnHeader l := rfl
            rw [this, hich] at hc
            cases hc
          | cons l2 ls3 =>
            have hconj : (!isConnHeader l || isModeLine l2) = true ∧
                coveredLines (l2 :: ls3) = true := by
              simpa only [coveredLines, Bool.and_eq_true] using hc
            have hml2 : isModeLine l2 = true := by
              have h4 := hconj.1
              rw [hich] at h4
              simpa using h4
            obtain ⟨r, hr⟩ := Option.isSome_iff_exists.mp hml2
            have hnh2 : nonHeader l2 = true := by
              simp [nonHeader, modeLine_not_header l2 hml2]
            show ((l2 :: ls3).takeWhile nonHeader).filterMap matchModeLine ≠ []
            rw [List.takeWhile_cons_of_pos hnh2, List.filterMap_cons, hr]
            simp
        · have hsuf : ls2.dropWhile nonHeader <:+ l :: ls2 :=
            List.IsSuffix.trans (List.dropWhile_suffix nonHeader) (List.suffix_cons l ls2)
          have hlen2 : (ls2.dropWhile nonHeader).length ≤ n :=
            Nat.le_trans (dropWhileLenLe nonHeader ls2) (Nat.le_of_succ_le_succ hlen)
          exact ih (ls2.dropWhile nonHeader) hlen2
            (coveredLines_suffix (l :: ls2) (ls2.dropWhile nonHeader) hsuf hc) o h1 hoc

/-- Claim C3 (amended): the parser does not itself enforce the data-model
invariant — a connected header followed by no mode line parses to a
connected output with an empty resolutions list (see the counterexample).
For every input in which each connected header line is immediately
followed by a mode line, every connected output of the parsed snapshot has
a non-empty resolutions list. -/
theorem c3_connected_nonempty_of_covered (lines : List String)
    (hcov : coveredLines lines = true) :
    ∀ o ∈ parseXrandr lines, o.Connected = true → o.Resolutions ≠ [] := by
  rw [parseXrandr_eq_ref lines]
  exact coveredRef_aux lines.length lines (Nat.le_refl _) hcov

/-- Claim C3 counterexample: the single-line input consisting of one
connected header with no following mode line parses to a snapshot whose
only output is connected yet has an empty resolutions list, violating the
claimed invariant that a connected output's resolutions list is non-empty. -/
theorem c3_counterexample :
    parseXrandr [("HDMI-1 connected")] =
      [{ Name := "HDMI-1", Connected := true, Primary := false, Resolutions := [] }] ∧
    ({ Name := "HDMI-1", Connected := true, Primary := false,
       Resolutions := [] } : output).Connected = true ∧
    ({ Name := "HDMI-1", Connected := true, Primary := false,
       Resolutions := [] } : output).Resolutions = [] := by
  decide

theorem c3_connected_nonempty_of_covered_witness :
    coveredLines [("eDP-1 connected primary"), ("   1920x1080 60.00*+")] = true ∧
    (∀ o ∈ parseXrandr [("eDP-1 connected primary"), ("   1920x1080 60.00*+")],
      o.Connected = true → o.Resolutions ≠ []) :=
  ⟨by decide, c3_connected_nonempty_of_covered _ (by decide)⟩
